import Mathlib

/-!
Verification of the Whispers lineage store.

The repository is a set of Streamlit applications (`whispers_supabase.py`,
`whispers_campaign.py`, `whispers_campaign_v1.py`, `whispers_v13.py`) that
store "whisper" nodes — immutable text fragments linked into a forest by
`parent` / `children` fields — behind three interchangeable backends
(Supabase REST table, Firestore with an in-memory fallback dict, and a local
JSON file loaded into a dict).

This file gives a shallow embedding of the store operations those programs
implement and proves (or refutes) the specified properties about them.
Strings are modelled by Lean `String` except for the link builder, where the
byte-level behaviour of `urllib.parse.urlencode` / `parse_qs` matters and the
model works on lists of byte values.
-/

/-- Python `str.strip()` whitespace test, restricted to the ASCII whitespace
characters (space, tab, LF, VT, FF, CR).  Python also strips some further
Unicode whitespace; on the ASCII range the two agree. -/
def isPySpace (ch : Char) : Bool :=
  ch.toNat = 32 || ch.toNat = 9 || ch.toNat = 10 || ch.toNat = 11 ||
  ch.toNat = 12 || ch.toNat = 13

/-- Python `s.strip()`: drop leading and trailing whitespace. -/
def pyStrip (s : String) : String :=
  ⟨((s.data.dropWhile isPySpace).reverse.dropWhile isPySpace).reverse⟩

/-- `build_whisper_message` from `whispers_supabase.py` (lines 48-56):
strip both arguments; if both are non-empty join them with the fixed
separator `" → "`, otherwise return whichever one is non-empty (or the
empty string when both are empty).  Python truthiness of a string is
non-emptiness. -/
def build_whisper_message (parent_message new_phrase : String) : String :=
  let p := pyStrip parent_message
  let n := pyStrip new_phrase
  if p ≠ "" ∧ n ≠ "" then p ++ " → " ++ n
  else if p ≠ "" then p
  else n

/-- A whisper record as persisted by every variant: the dict literal built in
`render_home` / `view_detail` (supabase), `render_home` / `render_detail`
(campaign_v1) and the `create_btn` / remix handlers (campaign). -/
structure WhisperNode where
  id : String
  message : String
  motif : Option String
  phrase : Option String
  author : Option String
  parent : Option String
  children : List String
  timestamp : String
deriving Repr, DecidableEq

/-- A backend store: a dict keyed by whisper id
(`st.session_state.local_whispers` in campaign_v1, the `whispers` dict in
campaign, the remote table rows in the supabase variant). -/
abbrev Store := List (String × WhisperNode)

/-- Dict lookup `store.get(wid)`. -/
def storeGet (s : Store) (wid : String) : Option WhisperNode :=
  s.lookup wid

/-- Dict assignment `store[wid] = w`: replace the entry if the key exists,
otherwise add it. -/
def storeSet (s : Store) (wid : String) (w : WhisperNode) : Store :=
  match s with
  | [] => [(wid, w)]
  | (k, v) :: rest => if k = wid then (wid, w) :: rest else (k, v) :: storeSet rest wid w

/-- `save_whisper(data)` from `whispers_campaign_v1.py` (lines 90-97), local
fallback path (and `db.collection("whispers").document(data["id"]).set(data)`
on the Firestore path, which likewise overwrites): an unconditional dict
assignment keyed by `data["id"]`. -/
def save_whisper (s : Store) (data : WhisperNode) : Store :=
  storeSet s data.id data

/-- `update_children(parent_id, child_id)` from `whispers_campaign_v1.py`
(lines 100-115), local fallback path: read the parent, append `child_id` to
its `children` if not already present, write the parent back.  (The Python
`parent.get("children", []) or []` default is the list itself here since
every created node carries a `children` list.)  Returns the store unchanged
when the parent is missing. -/
def update_children (s : Store) (parent_id child_id : String) : Store :=
  match storeGet s parent_id with
  | none => s
  | some parent =>
      let children := parent.children
      let children := if child_id ∈ children then children else children ++ [child_id]
      storeSet s parent_id { parent with children := children }

/-- A user-visible notification emitted by the Streamlit handlers
(`st.success` / `st.error`).  This is the complete vocabulary of outcomes the
remix handlers report: there is no further outcome constructor in the code. -/
inductive UiMsg where
  | success (text : String)
  | error (text : String)
deriving Repr, DecidableEq

/-- `supabase_create_whisper(data)` from `whispers_supabase.py` (lines
87-99): POST the row to the table.  The HTTP outcome is an input of the
model (`ok`): on success the table gains the row and the created row is
returned; on an error status the function shows an error and returns
`None`, leaving the table unchanged. -/
def supabase_create_whisper (s : Store) (data : WhisperNode) (ok : Bool) :
    Store × Option WhisperNode × List UiMsg :=
  if ok then (storeSet s data.id data, some data, [])
  else (s, none, [.error "Supabase create error"])

/-- `supabase_update_children(parent_id, child_id)` from
`whispers_supabase.py` (lines 102-117): fetch the parent, append `child_id`
to `children` if absent, then PATCH the whole list back unconditionally —
no version token guards the write.  `patchOk` is the HTTP outcome of the
PATCH; on failure only an error notification is produced. -/
def supabase_update_children (s : Store) (parent_id child_id : String) (patchOk : Bool) :
    Store × List UiMsg :=
  match storeGet s parent_id with
  | none => (s, [.error "Parent not found for updating children."])
  | some parent =>
      let children := parent.children
      let children := if child_id ∈ children then children else children ++ [child_id]
      if patchOk then (storeSet s parent_id { parent with children := children }, [])
      else (s, [.error "Supabase update children error"])

/-- The `Submit Remix` branch of `view_detail(wid)` from
`whispers_supabase.py` (lines 259-302): fetch the whisper, build the child
row with `build_whisper_message` (note: no emptiness check on
`remix_phrase`), create it, and if creation succeeded append it to the
parent's children and report `"Remix created!"` — the success message is
emitted whether or not the children PATCH succeeded. -/
def view_detail_submit_remix (s : Store) (wid : String)
    (remix_phrase remix_author child_id ts : String) (createOk patchOk : Bool) :
    Store × List UiMsg :=
  match storeGet s wid with
  | none => (s, [.error "Whisper not found."])
  | some w =>
      let new_message := build_whisper_message w.message remix_phrase
      let new_data : WhisperNode :=
        { id := child_id, message := new_message, motif := w.motif,
          phrase := some remix_phrase, author := some remix_author,
          parent := some w.id, children := [], timestamp := ts }
      match supabase_create_whisper s new_data createOk with
      | (s1, some _, msgs) =>
          let r := supabase_update_children s1 w.id child_id patchOk
          (r.1, msgs ++ r.2 ++ [.success "Remix created!"])
      | (s1, none, msgs) => (s1, msgs)

/-- Outcome of the campaign remix handler: not-found page, rejected empty
continuation, or the updated store together with the new child id. -/
inductive RemixResult where
  | notFound
  | emptyContinuation (store : Store)
  | created (store : Store) (childId : String)
deriving Repr, DecidableEq

/-- The `Submit remix` branch of `render_detail(wid)` from
`whispers_campaign.py` (lines 134-183): reject a continuation that strips
to empty; otherwise create the child with message
`w["message"] + " → " + continuation` (parent message verbatim, continuation
stripped), store it under the fresh id, and append the id to the parent's
children (`whispers[wid]["children"].append(new_wid)`). -/
def render_detail_submit_remix (s : Store) (wid : String)
    (remix_add remix_author new_wid ts : String) : RemixResult :=
  match storeGet s wid with
  | none => .notFound
  | some w =>
      let continuation := pyStrip remix_add
      if continuation = "" then .emptyContinuation s
      else
        let new_message := w.message ++ " → " ++ continuation
        let child : WhisperNode :=
          { id := new_wid, message := new_message, motif := w.motif,
            phrase := none, parent := some wid, children := [],
            author := if pyStrip remix_author = "" then none else some (pyStrip remix_author),
            timestamp := ts }
        let s1 := storeSet s new_wid child
        let s2 :=
          match storeGet s1 wid with
          | some pw => storeSet s1 wid { pw with children := pw.children ++ [new_wid] }
          | none => s1
        .created s2 new_wid

/-- Resolution of a node's children as done by the children-display loops of
`render_detail` (campaign, lines 185-196) and `view_detail` (supabase, lines
304-311): look each id up and silently skip identifiers that do not
resolve. -/
def resolve_children (s : Store) (w : WhisperNode) : List WhisperNode :=
  w.children.filterMap (fun cid => storeGet s cid)

/-- A raw Supabase table row as returned by the REST endpoint before the
read-side normalisation: the stored `children` column may be SQL `null`
(modelled as `none`). -/
structure SupaRow where
  id : String
  message : String
  motif : Option String
  phrase : Option String
  author : Option String
  parent : Option String
  children : Option (List String)
  timestamp : String
deriving Repr, DecidableEq

/-- The per-row normalisation both read paths perform:
`if w.get("children") is None: w["children"] = []`. -/
def normalize_children (w : SupaRow) : SupaRow :=
  if w.children = none then { w with children := some [] } else w

/-- `supabase_get_all()` from `whispers_supabase.py` (lines 119-132): on a
non-200 status (or JSON decode failure, folded into the same flag) return
`[]`; otherwise return every row with `children` normalised. -/
def supabase_get_all (status : Nat) (rows : List SupaRow) : List SupaRow :=
  if status ≠ 200 then [] else rows.map normalize_children

/-- `supabase_get_by_id(wid)` from `whispers_supabase.py` (lines 135-150):
on a non-200 status return `None`; otherwise take the first row matching
the id filter `?id=eq.wid`, normalising `children`, or `None` when the
filter matched nothing. -/
def supabase_get_by_id (status : Nat) (rows : List SupaRow) (wid : String) :
    Option SupaRow :=
  if status ≠ 200 then none
  else
    match rows.filter (fun w => w.id = wid) with
    | [] => none
    | w :: _ => some (normalize_children w)

/-- The pure read-modify step of `supabase_update_children` /
`update_children` applied to the snapshot of `children` the call read:
append the child when absent.  The subsequent write (PATCH / dict
assignment) installs this list unconditionally. -/
def append_child_snapshot (snapshot : List String) (child_id : String) : List String :=
  if child_id ∈ snapshot then snapshot else snapshot ++ [child_id]

/-- Progress of one in-flight `appendChild` call: it has not yet read the
parent, it holds the snapshot of `children` it read, or its write-back has
been issued. -/
inductive TPhase where
  | ready
  | got (snap : List String)
  | done
deriving Repr, DecidableEq

/-- Shared state for two concurrent `update_children` calls against the same
parent: the parent's persisted `children` column plus each caller's
progress. -/
structure CState where
  children : List String
  ta : TPhase
  tb : TPhase
deriving Repr, DecidableEq

/-- Interleaving semantics of two concurrent `update_children(p, ca)` and
`update_children(p, cb)` executions, exactly as the source performs them:
each call first reads the current `children` list (no version token is
read), then writes back `append_child_snapshot snap c` unconditionally (the
PATCH carries no guard, so it succeeds regardless of intervening writes). -/
inductive CStep (ca cb : String) : CState → CState → Prop where
  | readA (s : CState) : s.ta = .ready → CStep ca cb s { s with ta := .got s.children }
  | readB (s : CState) : s.tb = .ready → CStep ca cb s { s with tb := .got s.children }
  | writeA (s : CState) (snap : List String) : s.ta = .got snap →
      CStep ca cb s { s with children := append_child_snapshot snap ca, ta := .done }
  | writeB (s : CState) (snap : List String) : s.tb = .got snap →
      CStep ca cb s { s with children := append_child_snapshot snap cb, tb := .done }

/-- Progress of one remix submission in `view_detail` (supabase): before the
POST of the new node, after a successful POST, after the create failed (the
handler stops), and after the `supabase_update_children` call returned. -/
inductive RemixPhase where
  | start
  | created
  | failed
  | linked
deriving Repr, DecidableEq

/-- Small-step semantics of the persistence actions of one remix submission
(`view_detail` lines 283-302): first `supabase_create_whisper` POSTs the new
node (which either stores it or fails, ending the handler), and only after a
successful create does `supabase_update_children` run, whose PATCH may
itself succeed or fail.  The link write never precedes the child write. -/
inductive RemixStep (parent_id : String) (child : WhisperNode) :
    Store × RemixPhase → Store × RemixPhase → Prop where
  | createOk (s : Store) :
      RemixStep parent_id child (s, .start) (storeSet s child.id child, .created)
  | createFail (s : Store) :
      RemixStep parent_id child (s, .start) (s, .failed)
  | link (s : Store) (patchOk : Bool) :
      RemixStep parent_id child (s, .created)
        ((supabase_update_children s parent_id child.id patchOk).1, .linked)

/-- Referential closure of the store's `children` lists: every identifier
appearing in some stored node's `children` resolves to a stored node.  This
is the "no orphan link" reading invariant. -/
def LinkedClosed (s : Store) : Prop :=
  ∀ k w, storeGet s k = some w → ∀ c ∈ w.children, ∃ w', storeGet s c = some w'

/-- The byte values of an ASCII string literal, used to state byte-level
facts about the URI components. -/
def asciiBytes (s : String) : List Nat :=
  s.data.map Char.toNat

/-- `urllib`'s always-safe byte set: ASCII letters, digits, `_`, `.`, `-`,
`~`.  `urlencode` calls its quoter with `safe=''`, so exactly these bytes
pass through unencoded. -/
def alwaysSafeByte (b : Nat) : Bool :=
  (65 ≤ b && b ≤ 90) || (97 ≤ b && b ≤ 122) || (48 ≤ b && b ≤ 57) ||
  b = 95 || b = 46 || b = 45 || b = 126

/-- Uppercase hexadecimal digit byte for a value below 16, as `quote`
formats percent-escapes. -/
def hexDig (n : Nat) : Nat :=
  if n < 10 then 48 + n else 55 + n

/-- Value of a hexadecimal digit byte (`unquote` accepts both cases);
`none` for a non-hex byte. -/
def hexVal (b : Nat) : Option Nat :=
  if 48 ≤ b ∧ b ≤ 57 then some (b - 48)
  else if 65 ≤ b ∧ b ≤ 70 then some (b - 55)
  else if 97 ≤ b ∧ b ≤ 102 then some (b - 87)
  else none

/-- `quote_plus` on a single byte: space becomes `+`, safe bytes pass
through, everything else becomes `%XX`. -/
def quoteByte (b : Nat) : List Nat :=
  if b = 32 then [43]
  else if alwaysSafeByte b then [b]
  else [37, hexDig (b / 16), hexDig (b % 16)]

/-- `urllib.parse.quote_plus` over the UTF-8 bytes of a string. -/
def quotePlus (s : List Nat) : List Nat :=
  s.foldr (fun b acc => quoteByte b ++ acc) []

/-- `urllib.parse.unquote_plus` over bytes: `+` becomes a space, `%` followed
by two hex digits becomes the encoded byte, an invalid escape is kept
literally, all other bytes pass through. -/
def unquoteBytes : List Nat → List Nat
  | [] => []
  | b :: rest =>
    if b = 43 then 32 :: unquoteBytes rest
    else if b = 37 then
      match rest with
      | h :: l :: rest2 =>
          match hexVal h, hexVal l with
          | some hv, some lv => (16 * hv + lv) :: unquoteBytes rest2
          | _, _ => b :: unquoteBytes (h :: l :: rest2)
      | [h] => b :: unquoteBytes [h]
      | [] => [b]
    else b :: unquoteBytes rest

/-- `urllib.parse.urlencode` on an ordered list of key/value pairs:
`quote_plus` each side, join each pair with `=` (byte 61) and the pairs with
`&` (byte 38). -/
def urlencodePairs : List (List Nat × List Nat) → List Nat
  | [] => []
  | [p] => quotePlus p.1 ++ 61 :: quotePlus p.2
  | p :: rest => quotePlus p.1 ++ 61 :: quotePlus p.2 ++ 38 :: urlencodePairs rest

/-- The query the link builder encodes: `urlencode({"id": wid, "view":
"detail"})` (dict insertion order is preserved). -/
def make_query (wid : List Nat) : List Nat :=
  urlencodePairs [(asciiBytes "id", wid), (asciiBytes "view", asciiBytes "detail")]

/-- The netloc/path assembly step of `urllib.parse.urlunsplit` on bytes
(47 is `/`): prepend `//netloc` when a netloc is present or the path does
not itself start with `//`, inserting a `/` before a relative path. -/
def netloc_url (netloc url : List Nat) : List Nat :=
  if netloc ≠ [] ∨ (url ≠ [] ∧ url.take 2 ≠ [47, 47]) then
    [47, 47] ++ netloc ++ (if url ≠ [] ∧ url.take 1 ≠ [47] then 47 :: url else url)
  else url

/-- The scheme step of `urlunsplit` (58 is `:`). -/
def urlunsplit_base (scheme netloc url : List Nat) : List Nat :=
  if scheme ≠ [] then scheme ++ 58 :: netloc_url netloc url
  else netloc_url netloc url

/-- `urllib.parse.urlunsplit` on bytes, for empty params and fragment as
`make_link_for_id` passes them (63 is `?`). -/
def urlunsplit (scheme netloc url query : List Nat) : List Nat :=
  if query ≠ [] then urlunsplit_base scheme netloc url ++ 63 :: query
  else urlunsplit_base scheme netloc url

/-- `make_link_for_id(base_url, wid)` from `whispers_supabase.py` (lines
59-63) and `whispers_campaign.py` (lines 54-59): urlparse the base URL and
reassemble it with `path or "/"`, no params, the encoded
`{"id": wid, "view": "detail"}` query and no fragment.  The model takes the
origin as its already-parsed `scheme`/`netloc`/`path` components, which is
what `urlparse` hands to `urlunparse`; `urlparse` output never contains `?`
in those components since it splits the query off at the first `?`. -/
def make_link_for_id (scheme netloc path : List Nat) (wid : List Nat) : List Nat :=
  let path := if path = [] then [47] else path
  urlunsplit scheme netloc path (make_query wid)

/-- The query component of a URI: everything after the first `?` byte. -/
def uriQuery (uri : List Nat) : List Nat :=
  (uri.dropWhile (fun b => b ≠ 63)).drop 1

/-- Split a byte list on every occurrence of a separator byte, as
`qs.split('&')` and the first stage of `parse_qs` do. -/
def splitOnByte (sep : Nat) : List Nat → List (List Nat)
  | [] => [[]]
  | b :: rest =>
    let r := splitOnByte sep rest
    if b = sep then [] :: r
    else
      match r with
      | [] => [[b]]
      | g :: gs => (b :: g) :: gs

/-- One `name=value` fragment of `parse_qsl` with default options: skip an
empty fragment, a fragment without `=` and a fragment with a blank value
(`keep_blank_values=False`); `unquote_plus` both name and value of the
rest.  `split('=', 1)` splits at the first `=` only. -/
def parse_pair (nv : List Nat) : Option (List Nat × List Nat) :=
  if nv = [] then none
  else
    let name := nv.takeWhile (fun b => b ≠ 61)
    let rest := nv.dropWhile (fun b => b ≠ 61)
    if rest = [] then none
    else
      let value := rest.drop 1
      if value = [] then none
      else some (unquoteBytes name, unquoteBytes value)

/-- `urllib.parse.parse_qsl(qs)` with default options: split on `&` and
decode each fragment. -/
def parse_qsl (qs : List Nat) : List (List Nat × List Nat) :=
  (splitOnByte 38 qs).filterMap parse_pair

/-- `parse_qs(qs)[key]`: the list of decoded values carried by `key`
(`parse_qs` groups `parse_qsl`'s pairs by name). -/
def parse_qs_get (qs : List Nat) (key : List Nat) : List (List Nat) :=
  (parse_qsl qs).filterMap fun p => if p.1 = key then some p.2 else none

/-- Sample root whisper (the spec's scenario node), used to instantiate
theorems at concrete inputs. -/
def rootNode : WhisperNode :=
  { id := "R", message := "Growth begins in silence.", motif := none,
    phrase := some "Growth begins in silence.", author := some "dex",
    parent := none, children := [], timestamp := "t0" }

/-- Sample node stored under id `"a"`. -/
def nodeFirst : WhisperNode :=
  { id := "a", message := "first", motif := none, phrase := none,
    author := none, parent := none, children := [], timestamp := "t0" }

/-- A different node carrying the same id `"a"`. -/
def nodeSecond : WhisperNode :=
  { id := "a", message := "second", motif := none, phrase := none,
    author := none, parent := none, children := [], timestamp := "t1" }

/-- Sample freshly-remixed child node, used to instantiate the orphan-link
theorem. -/
def childNodeC : WhisperNode :=
  { id := "C", message := "Growth begins in silence. → more", motif := none,
    phrase := some "more", author := some "me", parent := some "R",
    children := [], timestamp := "t1" }


/-! ## Store lemmas -/

/-- Lookup after dict assignment: the assigned key yields the assigned
value, every other key is unchanged. -/
theorem storeGet_storeSet (s : Store) (k : String) (v : WhisperNode) (j : String) :
    storeGet (storeSet s k v) j = if j = k then some v else storeGet s j := by
  induction s with
  | nil =>
      simp only [storeSet, storeGet, List.lookup]
      split <;> simp_all
  | cons hd tl ih =>
      obtain ⟨a, b⟩ := hd
      simp only [storeSet]
      split
      · rename_i hak
        subst hak
        simp only [storeGet, List.lookup]
        split <;> rename_i hja <;> simp_all
      · rename_i hak
        simp only [storeGet, List.lookup] at *
        split <;> rename_i hja <;> simp_all

/-- Dict assignment of a childless node preserves the linked-closure
invariant. -/
theorem linkedClosed_storeSet_childless (s : Store) (k : String) (v : WhisperNode)
    (hv : v.children = []) (h : LinkedClosed s) : LinkedClosed (storeSet s k v) := by
  intro k' w' hw' c hc
  rw [storeGet_storeSet] at hw'
  split at hw'
  · cases hw'
    rw [hv] at hc
    cases hc
  · obtain ⟨w'', hw''⟩ := h k' w' hw' c hc
    rw [storeGet_storeSet]
    split
    · exact ⟨v, rfl⟩
    · exact ⟨w'', hw''⟩

/-! ## C9: message composition edge cases -/

/-- C9: `build_whisper_message` returns the trimmed parent message alone when
the trimmed continuation is empty, the trimmed continuation alone when the
trimmed parent message is empty, and inserts the separator `" → "` exactly
when both trimmed arguments are non-empty. -/
theorem build_whisper_message_cases (p c : String) :
    (pyStrip c = "" → build_whisper_message p c = pyStrip p) ∧
    (pyStrip p = "" → build_whisper_message p c = pyStrip c) ∧
    (pyStrip p ≠ "" → pyStrip c ≠ "" →
      build_whisper_message p c = pyStrip p ++ " → " ++ pyStrip c) := by
  refine ⟨?_, ?_, ?_⟩ <;> intros <;>
    simp only [build_whisper_message] <;> split_ifs <;> simp_all

/-- Witness for C9 at concrete inputs: a whitespace-only continuation, a
whitespace-only parent message, and two non-empty sides. -/
theorem build_whisper_message_cases_witness :
    (pyStrip "   " = "" ∧ build_whisper_message "a " "   " = pyStrip "a ") ∧
    (pyStrip " " = "" ∧ build_whisper_message " " " b" = pyStrip " b") ∧
    (pyStrip "a" ≠ "" ∧ pyStrip "b" ≠ "" ∧
      build_whisper_message "a" "b" = pyStrip "a" ++ " → " ++ pyStrip "b") :=
  ⟨⟨by decide, (build_whisper_message_cases "a " "   ").1 (by decide)⟩,
   ⟨by decide, (build_whisper_message_cases " " " b").2.1 (by decide)⟩,
   by decide, by decide,
   (build_whisper_message_cases "a" "b").2.2 (by decide) (by decide)⟩

/-! ## C10: read paths normalise a stored null children field -/

/-- C10: every row handed out by `supabase_get_all` or `supabase_get_by_id`
has a materialised `children` list — a stored SQL `null` is replaced by the
empty list before the row reaches callers, so callers never observe
`children = None`. -/
theorem supabase_reads_normalize_children (status : Nat) (rows : List SupaRow) (wid : String) :
    (∀ w ∈ supabase_get_all status rows, w.children ≠ none) ∧
    (∀ w, supabase_get_by_id status rows wid = some w → w.children ≠ none) := by
  constructor
  · intro w hw
    simp only [supabase_get_all] at hw
    split at hw
    · cases hw
    · obtain ⟨r, _, hr⟩ := List.mem_map.mp hw
      subst hr
      simp only [normalize_children]
      split <;> simp_all
  · intro w hw
    simp only [supabase_get_by_id] at hw
    split at hw
    · cases hw
    · split at hw
      · cases hw
      · cases hw
        simp only [normalize_children]
        split <;> simp_all

/-- Witness for C10: a store with one row whose `children` column is null;
both read operations hand back the row with `children = some []`. -/
theorem supabase_reads_normalize_children_witness :
    ({ id := "r", message := "m", motif := none, phrase := none, author := none,
       parent := none, children := some [], timestamp := "t" } : SupaRow) ∈
      supabase_get_all 200
        [{ id := "r", message := "m", motif := none, phrase := none, author := none,
           parent := none, children := none, timestamp := "t" }] ∧
    ({ id := "r", message := "m", motif := none, phrase := none, author := none,
       parent := none, children := some [], timestamp := "t" } : SupaRow).children ≠ none ∧
    supabase_get_by_id 200
        [{ id := "r", message := "m", motif := none, phrase := none, author := none,
           parent := none, children := none, timestamp := "t" }] "r" =
      some { id := "r", message := "m", motif := none, phrase := none, author := none,
             parent := none, children := some [], timestamp := "t" } :=
  ⟨by decide,
   (supabase_reads_normalize_children 200
      [{ id := "r", message := "m", motif := none, phrase := none, author := none,
         parent := none, children := none, timestamp := "t" }] "r").1
     { id := "r", message := "m", motif := none, phrase := none, author := none,
       parent := none, children := some [], timestamp := "t" } (by decide),
   by decide⟩

/-! ## C5: `put` does not fail with Conflict — it silently overwrites -/

/-- Counterexample to C5: the store already holds `nodeFirst` under id
`"a"`; `save_whisper` of `nodeSecond` (same id, different content) does not
fail — it replaces the stored node, so the previously stored node is not
left unchanged and no Conflict is reported. -/
theorem save_whisper_overwrites_cex :
    storeGet [("a", nodeFirst)] "a" = some nodeFirst ∧
    save_whisper [("a", nodeFirst)] nodeSecond = [("a", nodeSecond)] ∧
    storeGet (save_whisper [("a", nodeFirst)] nodeSecond) "a" = some nodeSecond ∧
    nodeSecond ≠ nodeFirst := by decide

/-- C5 as amended: the backend put operation (`save_whisper`) persists the
node under its id unconditionally — an already-existing id is silently
overwritten, every other key is untouched, and no failure outcome exists;
id uniqueness rests solely on fresh UUID generation. -/
theorem save_whisper_unconditional (s : Store) (data : WhisperNode) :
    storeGet (save_whisper s data) data.id = some data ∧
    ∀ k, k ≠ data.id → storeGet (save_whisper s data) k = storeGet s k := by
  constructor
  · rw [save_whisper, storeGet_storeSet]
    simp
  · intro k hk
    rw [save_whisper, storeGet_storeSet]
    simp [hk]

/-- Witness for C5's amended statement: overwrite id `"a"` in a two-entry
store and observe id `"b"` untouched. -/
theorem save_whisper_unconditional_witness :
    storeGet (save_whisper [("a", nodeFirst), ("b", rootNode)] nodeSecond) nodeSecond.id
        = some nodeSecond ∧
    ("b" ≠ nodeSecond.id) ∧
    storeGet (save_whisper [("a", nodeFirst), ("b", rootNode)] nodeSecond) "b"
        = storeGet [("a", nodeFirst), ("b", rootNode)] "b" :=
  ⟨(save_whisper_unconditional [("a", nodeFirst), ("b", rootNode)] nodeSecond).1,
   by decide,
   (save_whisper_unconditional [("a", nodeFirst), ("b", rootNode)] nodeSecond).2 "b" (by decide)⟩

/-! ## C3: appendChild is idempotent -/

/-- Unfolding of `update_children` when the parent resolves. -/
theorem update_children_of_get (s : Store) (p c : String) (w : WhisperNode)
    (hw : storeGet s p = some w) :
    update_children s p c = storeSet s p { w with children :=
      if c ∈ w.children then w.children else w.children ++ [c] } := by
  unfold update_children
  rw [hw]

/-- C3: calling `update_children(p, c)` twice with the same arguments leaves
`c` in the parent's `children` exactly once, and the operation never
introduces a duplicate (it preserves `Nodup`); the hypothesis that `c`
occurs at most once beforehand is what every state produced by the code
satisfies, since children are only ever appended when absent. -/
theorem update_children_idempotent (s : Store) (p c : String) (w : WhisperNode)
    (hw : storeGet s p = some w) (hcount : w.children.count c ≤ 1) :
    ∃ w2, storeGet (update_children (update_children s p c) p c) p = some w2 ∧
      w2.children.count c = 1 ∧ (w.children.Nodup → w2.children.Nodup) := by
  have h1 := update_children_of_get s p c w hw
  have hg1 : storeGet (update_children s p c) p =
      some { w with children := if c ∈ w.children then w.children else w.children ++ [c] } := by
    rw [h1, storeGet_storeSet]
    simp
  have hmem : c ∈ (if c ∈ w.children then w.children else w.children ++ [c]) := by
    by_cases hc : c ∈ w.children <;> simp [hc]
  have h2 := update_children_of_get (update_children s p c) p c _ hg1
  refine ⟨{ w with children := if c ∈ w.children then w.children else w.children ++ [c] },
    ?_, ?_, ?_⟩
  · rw [h2, if_pos hmem, storeGet_storeSet]
    simp
  · by_cases hc : c ∈ w.children
    · have hpos : 0 < w.children.count c := List.count_pos_iff.mpr hc
      simp only [hc, if_pos]
      omega
    · simp [hc, List.count_eq_zero.mpr hc]
  · intro hnd
    by_cases hc : c ∈ w.children
    · simpa [hc] using hnd
    · rw [if_neg hc, List.nodup_append]
      refine ⟨hnd, List.nodup_singleton c, ?_⟩
      intro a ha hac
      rw [List.mem_singleton] at hac
      exact hc (hac ▸ ha)

/-- Witness for C3: append `"C"` to the sample root twice; it ends up in the
children exactly once. -/
theorem update_children_idempotent_witness :
    storeGet [("R", rootNode)] "R" = some rootNode ∧
    rootNode.children.count "C" ≤ 1 ∧
    ∃ w2, storeGet (update_children (update_children [("R", rootNode)] "R" "C") "R" "C") "R"
        = some w2 ∧
      w2.children.count "C" = 1 ∧ (rootNode.children.Nodup → w2.children.Nodup) :=
  ⟨by decide, by decide,
   update_children_idempotent [("R", rootNode)] "R" "C" rootNode (by decide) (by decide)⟩

/-! ## C2: a failed link is reported as plain success -/

/-- C2 failing run: the remix POST succeeds but the children PATCH fails.
The child node is persisted, the parent's `children` list is unchanged (the
link was not written), and the handler still reports the success message
`"Remix created!"` — the `UiMsg` vocabulary of the code has no
PartialFailure outcome at all, so the failure is only a side notification
next to a plain success. -/
theorem remix_link_failure_still_reports_success :
    (view_detail_submit_remix [("R", rootNode)] "R" "more words" "me" "C" "t1" true false).2
      = [UiMsg.error "Supabase update children error", UiMsg.success "Remix created!"] ∧
    storeGet (view_detail_submit_remix [("R", rootNode)] "R" "more words" "me" "C" "t1"
        true false).1 "C"
      = some { id := "C", message := "Growth begins in silence. → more words",
               motif := none, phrase := some "more words", author := some "me",
               parent := some "R", children := [], timestamp := "t1" } ∧
    storeGet (view_detail_submit_remix [("R", rootNode)] "R" "more words" "me" "C" "t1"
        true false).1 "R" = some rootNode := by decide

/-! ## C6: the supabase remix path persists a node for a blank continuation -/

/-- C6 failing run: submitting a remix whose continuation is whitespace-only
on the supabase detail view.  `pyStrip "   " = ""`, yet no `InvalidInput`
is reported: a child node is persisted (its message equal to the parent's
message, since `build_whisper_message` drops the blank phrase), the child is
linked into the parent's `children`, and plain success is reported.  The
sibling variants (`whispers_campaign.py` line 162-164,
`whispers_campaign_v1.py` line 218-219) do perform this check. -/
theorem remix_blank_continuation_persists_node :
    pyStrip "   " = "" ∧
    (view_detail_submit_remix [("R", rootNode)] "R" "   " "me" "C" "t1" true true).2
      = [UiMsg.success "Remix created!"] ∧
    storeGet (view_detail_submit_remix [("R", rootNode)] "R" "   " "me" "C" "t1"
        true true).1 "C"
      = some { id := "C", message := "Growth begins in silence.", motif := none,
               phrase := some "   ", author := some "me", parent := some "R",
               children := [], timestamp := "t1" } ∧
    storeGet (view_detail_submit_remix [("R", rootNode)] "R" "   " "me" "C" "t1"
        true true).1 "R" = some { rootNode with children := ["C"] } := by decide

/-! ## C1: concurrent appends lose updates -/

/-- C1 failing interleaving: both concurrent `update_children` calls against
the same parent (initial `children = []`) read before either writes.  Both
calls run to completion (`done`), yet the final `children` list is `["b"]`:
the append of `"a"` has been overwritten, because the write-back carries no
version token and is not conditional.  This refutes the claimed
compare-and-retry mechanism and the eventually-exactly-once guarantee. -/
theorem update_children_lost_update :
    Relation.ReflTransGen (CStep "a" "b")
      { children := [], ta := TPhase.ready, tb := TPhase.ready }
      { children := ["b"], ta := TPhase.done, tb := TPhase.done } ∧
    List.count "a" ["b"] = 0 := by
  constructor
  · have h1 : CStep "a" "b" ⟨[], .ready, .ready⟩ ⟨[], .got [], .ready⟩ :=
      CStep.readA _ rfl
    have h2 : CStep "a" "b" ⟨[], .got [], .ready⟩ ⟨[], .got [], .got []⟩ :=
      CStep.readB _ rfl
    have h3 : CStep "a" "b" ⟨[], .got [], .got []⟩ ⟨["a"], .done, .got []⟩ :=
      CStep.writeA _ [] rfl
    have h4 : CStep "a" "b" ⟨["a"], .done, .got []⟩ ⟨["b"], .done, .done⟩ :=
      CStep.writeB _ [] rfl
    exact Relation.ReflTransGen.tail
      (Relation.ReflTransGen.tail
        (Relation.ReflTransGen.tail (Relation.ReflTransGen.single h1) h2) h3) h4
  · decide


/-! ## C4: remix message composition -/

/-- Counterexample to C4 as stated: with the non-empty continuation `" y"`
(a leading space), the node created by the remix has message
`parent.message ++ " → " ++ "y"` — the continuation is stripped before
composition — which differs from `parent.message ++ " → " ++ " y"`. -/
theorem remix_message_verbatim_cex :
    render_detail_submit_remix [("R", rootNode)] "R" " y" "" "C" "t1"
      = RemixResult.created
          [("R", { rootNode with children := ["C"] }),
           ("C", { id := "C", message := "Growth begins in silence. → y",
                   motif := none, phrase := none, author := none,
                   parent := some "R", children := [], timestamp := "t1" })] "C" ∧
    ("Growth begins in silence. → y" : String)
      ≠ rootNode.message ++ " → " ++ " y" := by decide

/-- C4 as amended: for every existing parent and continuation that is
non-empty after trimming, the remix creates a node whose message is the
parent's message, the separator `" → "`, then the **trimmed** continuation
(equal to the continuation itself whenever it carries no surrounding
whitespace), and that node is among the resolved children of the parent.
The freshness hypothesis on the new id reflects UUID generation. -/
theorem remix_message_composition (s : Store) (wid : String) (w : WhisperNode)
    (x author nid ts : String)
    (hw : storeGet s wid = some w) (hx : pyStrip x ≠ "") (hfresh : storeGet s nid = none) :
    ∃ s2 child parent2,
      render_detail_submit_remix s wid x author nid ts = RemixResult.created s2 nid ∧
      storeGet s2 nid = some child ∧
      child.message = w.message ++ " → " ++ pyStrip x ∧
      storeGet s2 wid = some parent2 ∧
      parent2.children = w.children ++ [nid] ∧
      child ∈ resolve_children s2 parent2 := by
  have hne : nid ≠ wid := by
    intro h
    rw [h, hw] at hfresh
    cases hfresh
  have hg1 : storeGet (storeSet s nid
      { id := nid, message := w.message ++ " → " ++ pyStrip x, motif := w.motif,
        phrase := none, parent := some wid, children := [],
        author := if pyStrip author = "" then none else some (pyStrip author),
        timestamp := ts }) wid = some w := by
    rw [storeGet_storeSet, if_neg (fun h => hne h.symm)]
    exact hw
  simp only [render_detail_submit_remix, hw, if_neg hx, hg1]
  refine ⟨_,
    { id := nid, message := w.message ++ " → " ++ pyStrip x, motif := w.motif,
      phrase := none, parent := some wid, children := [],
      author := if pyStrip author = "" then none else some (pyStrip author),
      timestamp := ts },
    { w with children := w.children ++ [nid] }, rfl, ?_, rfl, ?_, rfl, ?_⟩
  · rw [storeGet_storeSet, if_neg hne, storeGet_storeSet, if_pos rfl]
  · rw [storeGet_storeSet, if_pos rfl]
  · refine List.mem_filterMap.mpr ⟨nid, ?_, ?_⟩
    · exact List.mem_append_right _ (List.mem_singleton_self nid)
    · rw [storeGet_storeSet, if_neg hne, storeGet_storeSet, if_pos rfl]

/-- Witness for C4's amended statement, on the spec's own scenario: remixing
the sample root with `"but community makes it grow."`. -/
theorem remix_message_composition_witness :
    storeGet [("R", rootNode)] "R" = some rootNode ∧
    pyStrip "but community makes it grow." ≠ "" ∧
    storeGet [("R", rootNode)] "C" = none ∧
    (∃ s2 child parent2,
      render_detail_submit_remix [("R", rootNode)] "R" "but community makes it grow."
          "" "C" "t1" = RemixResult.created s2 "C" ∧
      storeGet s2 "C" = some child ∧
      child.message = rootNode.message ++ " → " ++ pyStrip "but community makes it grow." ∧
      storeGet s2 "R" = some parent2 ∧
      parent2.children = rootNode.children ++ ["C"] ∧
      child ∈ resolve_children s2 parent2) :=
  ⟨by decide, by decide, by decide,
   remix_message_composition [("R", rootNode)] "R" rootNode
     "but community makes it grow." "" "C" "t1" (by decide) (by decide) (by decide)⟩

/-! ## C7: child persisted before link -/

/-- Dict assignment never removes a resolvable key. -/
theorem storeGet_storeSet_exists (s : Store) (kk : String) (v : WhisperNode) (k : String)
    (h : ∃ w, storeGet s k = some w) : ∃ w, storeGet (storeSet s kk v) k = some w := by
  rw [storeGet_storeSet]
  split
  · exact ⟨v, rfl⟩
  · exact h

/-- `supabase_update_children` preserves linked-closure provided the child
being linked already resolves in the store. -/
theorem linkedClosed_update (s : Store) (pid cid : String) (patchOk : Bool)
    (h : LinkedClosed s) (hc : ∃ w, storeGet s cid = some w) :
    LinkedClosed (supabase_update_children s pid cid patchOk).1 := by
  rcases hp : storeGet s pid with _ | parent
  · unfold supabase_update_children
    rw [hp]
    exact h
  · unfold supabase_update_children
    rw [hp]
    cases patchOk with
    | false => exact h
    | true =>
        simp only [if_pos]
        intro k w hw c hcm
        rw [storeGet_storeSet] at hw
        split at hw
        · -- k = pid: the written parent; its children are old ones plus possibly cid
          cases hw
          have hcc : c ∈ parent.children ∨ c = cid := by
            by_cases hmem : cid ∈ parent.children
            · simp only [if_pos hmem] at hcm
              exact Or.inl hcm
            · simp only [if_neg hmem] at hcm
              rcases List.mem_append.mp hcm with h1 | h1
              · exact Or.inl h1
              · exact Or.inr (List.mem_singleton.mp h1)
          rcases hcc with h1 | h1
          · exact storeGet_storeSet_exists _ _ _ _ (h pid parent hp c h1)
          · subst h1
            exact storeGet_storeSet_exists _ _ _ _ hc
        · exact storeGet_storeSet_exists _ _ _ _ (h k w hw c hcm)

/-- `supabase_update_children` never removes a resolvable key. -/
theorem update_children_get_exists (s : Store) (pid cid : String) (patchOk : Bool)
    (k : String) (h : ∃ w, storeGet s k = some w) :
    ∃ w, storeGet (supabase_update_children s pid cid patchOk).1 k = some w := by
  rcases hp : storeGet s pid with _ | parent
  · unfold supabase_update_children
    rw [hp]
    exact h
  · unfold supabase_update_children
    rw [hp]
    cases patchOk with
    | false => exact h
    | true =>
        simp only [if_pos]
        exact storeGet_storeSet_exists _ _ _ _ h

/-- C7: along every execution of the remix persistence steps — the child
POST first, the `appendChild` PATCH only after a successful POST — started
from a store whose `children` lists all resolve, every reachable store
still has all `children` entries resolving: a parent never links an id
whose node has not been stored, because the child (with empty `children`)
is written before the link. -/
theorem remix_no_orphan_links (parent_id : String) (child : WhisperNode)
    (hchild : child.children = []) (s0 : Store) (h0 : LinkedClosed s0)
    (st : Store × RemixPhase)
    (hreach : Relation.ReflTransGen (RemixStep parent_id child) (s0, RemixPhase.start) st) :
    LinkedClosed st.1 := by
  suffices h : LinkedClosed st.1 ∧
      ((st.2 = RemixPhase.created ∨ st.2 = RemixPhase.linked) →
        ∃ w, storeGet st.1 child.id = some w) by
    exact h.1
  induction hreach with
  | refl =>
      refine ⟨h0, ?_⟩
      rintro (h | h) <;> cases h
  | tail hab hbc ih =>
      cases hbc with
      | createOk s =>
          refine ⟨linkedClosed_storeSet_childless _ _ _ hchild ih.1, ?_⟩
          intro _
          refine ⟨child, ?_⟩
          rw [storeGet_storeSet, if_pos rfl]
      | createFail s =>
          refine ⟨ih.1, ?_⟩
          rintro (h | h) <;> cases h
      | link s patchOk =>
          have hcid := ih.2 (Or.inl rfl)
          refine ⟨linkedClosed_update _ _ _ _ ih.1 hcid, ?_⟩
          intro _
          exact update_children_get_exists _ _ _ _ _ hcid


/-- Witness for C7: run one full remix (create, then link) against a store
holding the sample root; the invariant holds at the final state. -/
theorem remix_no_orphan_links_witness :
    childNodeC.children = [] ∧
    LinkedClosed [("R", rootNode)] ∧
    LinkedClosed ((supabase_update_children
        (storeSet [("R", rootNode)] childNodeC.id childNodeC)
        "R" childNodeC.id true).1) := by
  have h0 : LinkedClosed [("R", rootNode)] := by
    intro k w hw c hc
    simp only [storeGet, List.lookup] at hw
    split at hw
    · cases hw
      simp [rootNode] at hc
    · cases hw
  refine ⟨rfl, h0, ?_⟩
  exact remix_no_orphan_links "R" childNodeC rfl [("R", rootNode)] h0
    ((supabase_update_children (storeSet [("R", rootNode)] childNodeC.id childNodeC)
        "R" childNodeC.id true).1, RemixPhase.linked)
    (Relation.ReflTransGen.tail
      (Relation.ReflTransGen.single (RemixStep.createOk [("R", rootNode)]))
      (RemixStep.link (storeSet [("R", rootNode)] childNodeC.id childNodeC) true))

/-! ## C8: link builder round-trip -/

/-- Hex digit bytes are at least `'0'` (48). -/
theorem hexDig_ge (n : Nat) : 48 ≤ hexDig n := by
  unfold hexDig
  split <;> omega

/-- No byte emitted by `quoteByte` is `&` (38): `&` itself is percent-encoded
and hex-digit bytes are at least 48. -/
theorem quoteByte_ne_sep (b : Nat) : ∀ x ∈ quoteByte b, x ≠ 38 := by
  intro x hx
  unfold quoteByte at hx
  split_ifs at hx with h1 h2
  · rw [List.mem_singleton] at hx
    subst hx
    decide
  · rw [List.mem_singleton] at hx
    subst hx
    intro h38
    rw [h38] at h2
    simp [alwaysSafeByte] at h2
  · have ga := hexDig_ge (b / 16)
    have gb := hexDig_ge (b % 16)
    rcases List.mem_cons.mp hx with h | hx2
    · subst h
      decide
    rcases List.mem_cons.mp hx2 with h | hx3
    · omega
    rcases List.mem_cons.mp hx3 with h | hx4
    · omega
    · exact absurd hx4 (List.not_mem_nil x)

/-- `quote_plus` output never contains a literal `&`. -/
theorem quotePlus_ne_sep (l : List Nat) : ∀ x ∈ quotePlus l, x ≠ 38 := by
  induction l with
  | nil => intro x hx; cases hx
  | cons b rest ih =>
      intro x hx
      rcases List.mem_append.mp hx with h | h
      · exact quoteByte_ne_sep b x h
      · exact ih x h

/-- `quoteByte` always emits at least one byte. -/
theorem quoteByte_ne_nil (b : Nat) : quoteByte b ≠ [] := by
  unfold quoteByte
  split_ifs <;> simp

/-- `quote_plus` of a non-empty byte string is non-empty. -/
theorem quotePlus_ne_nil (l : List Nat) (h : l ≠ []) : quotePlus l ≠ [] := by
  cases l with
  | nil => exact absurd rfl h
  | cons b rest =>
      show quoteByte b ++ quotePlus rest ≠ []
      simp [quoteByte_ne_nil b]

/-- Decoding inverts the hex-digit encoding on values below 16. -/
theorem hexVal_hexDig : ∀ n < 16, hexVal (hexDig n) = some n := by decide

/-- `+` and `%` are not in the always-safe set, so `quote_plus` never emits
them as literals of themselves. -/
theorem alwaysSafe_not_plus_pct (b : Nat) (h : alwaysSafeByte b = true) :
    b ≠ 43 ∧ b ≠ 37 := by
  constructor <;> intro hb <;> subst hb <;> simp [alwaysSafeByte] at h

/-- `unquote_plus` consumes exactly the encoding of one byte. -/
theorem unquote_quoteByte (b : Nat) (hb : b < 256) (R : List Nat) :
    unquoteBytes (quoteByte b ++ R) = b :: unquoteBytes R := by
  by_cases h32 : b = 32
  · subst h32
    show unquoteBytes (43 :: R) = 32 :: unquoteBytes R
    rw [unquoteBytes.eq_def]
    simp
  · by_cases hsafe : alwaysSafeByte b = true
    · obtain ⟨h43, h37⟩ := alwaysSafe_not_plus_pct b hsafe
      have : quoteByte b = [b] := by simp [quoteByte, h32, hsafe]
      rw [this, List.singleton_append, unquoteBytes.eq_def]
      simp [h43, h37]
    · have hdiv : b / 16 < 16 := by omega
      have hmod : b % 16 < 16 := Nat.mod_lt _ (by omega)
      have e1 := hexVal_hexDig (b / 16) hdiv
      have e2 := hexVal_hexDig (b % 16) hmod
      have : quoteByte b = [37, hexDig (b / 16), hexDig (b % 16)] := by
        simp [quoteByte, h32, hsafe]
      rw [this]
      show unquoteBytes (37 :: hexDig (b / 16) :: hexDig (b % 16) :: R)
        = b :: unquoteBytes R
      rw [unquoteBytes.eq_def]
      simp [e1, e2, Nat.div_add_mod]

/-- Round trip of the byte quoting: `unquote_plus (quote_plus s) = s`. -/
theorem unquote_quotePlus (l : List Nat) (h : ∀ b ∈ l, b < 256) :
    unquoteBytes (quotePlus l) = l := by
  induction l with
  | nil => rfl
  | cons b rest ih =>
      show unquoteBytes (quoteByte b ++ quotePlus rest) = b :: rest
      rw [unquote_quoteByte b (h b (List.mem_cons_self b rest)) (quotePlus rest),
        ih (fun x hx => h x (List.mem_cons_of_mem b hx))]

/-- Splitting a separator-free list yields the list itself. -/
theorem splitOnByte_no_sep (sep : Nat) (xs : List Nat) (h : ∀ x ∈ xs, x ≠ sep) :
    splitOnByte sep xs = [xs] := by
  induction xs with
  | nil => rfl
  | cons a rest ih =>
      have ha : a ≠ sep := h a (List.mem_cons_self a rest)
      have := ih (fun x hx => h x (List.mem_cons_of_mem a hx))
      rw [splitOnByte, this]
      simp [ha]

/-- Splitting peels off a separator-free prefix at the first separator. -/
theorem splitOnByte_append (sep : Nat) (xs ys : List Nat) (h : ∀ x ∈ xs, x ≠ sep) :
    splitOnByte sep (xs ++ sep :: ys) = xs :: splitOnByte sep ys := by
  induction xs with
  | nil =>
      rw [List.nil_append, splitOnByte]
      simp
  | cons a rest ih =>
      have ha : a ≠ sep := h a (List.mem_cons_self a rest)
      have := ih (fun x hx => h x (List.mem_cons_of_mem a hx))
      rw [List.cons_append, splitOnByte, this]
      simp [ha]

/-- `split('=', 1)`, name side: `takeWhile` stops at the first `=`. -/
theorem takeWhile_append_stop (key Q : List Nat) (hk : ∀ x ∈ key, x ≠ 61) :
    (key ++ 61 :: Q).takeWhile (fun b => b ≠ 61) = key := by
  induction key with
  | nil => rw [List.nil_append, List.takeWhile_cons, if_neg (by simp)]
  | cons a rest ih =>
      have ha : a ≠ 61 := hk a (List.mem_cons_self a rest)
      rw [List.cons_append, List.takeWhile_cons, if_pos (by simp [ha]),
        ih (fun x hx => hk x (List.mem_cons_of_mem a hx))]

/-- `split('=', 1)`, value side: `dropWhile` stops at the first `=`. -/
theorem dropWhile_append_stop (key Q : List Nat) (hk : ∀ x ∈ key, x ≠ 61) :
    (key ++ 61 :: Q).dropWhile (fun b => b ≠ 61) = 61 :: Q := by
  induction key with
  | nil => rw [List.nil_append, List.dropWhile_cons, if_neg (by simp)]
  | cons a rest ih =>
      have ha : a ≠ 61 := hk a (List.mem_cons_self a rest)
      rw [List.cons_append, List.dropWhile_cons, if_pos (by simp [ha]),
        ih (fun x hx => hk x (List.mem_cons_of_mem a hx))]

/-- A well-formed `name=value` fragment with `=`-free name and non-blank
value decodes to the unquoted pair. -/
theorem parse_pair_eq (key Q : List Nat) (hk : ∀ x ∈ key, x ≠ 61) (hQ : Q ≠ []) :
    parse_pair (key ++ 61 :: Q) = some (unquoteBytes key, unquoteBytes Q) := by
  unfold parse_pair
  have hne : key ++ 61 :: Q ≠ [] := by simp
  rw [if_neg hne, takeWhile_append_stop key Q hk, dropWhile_append_stop key Q hk]
  simp [hQ]

/-- The query component of a URI whose prefix is `?`-free is everything
after the `?`. -/
theorem uriQuery_append (p q : List Nat) (h : ∀ x ∈ p, x ≠ 63) :
    uriQuery (p ++ 63 :: q) = q := by
  unfold uriQuery
  induction p with
  | nil =>
      rw [List.nil_append, List.dropWhile_cons, if_neg (by simp)]
      rfl
  | cons a rest ih =>
      have ha : a ≠ 63 := h a (List.mem_cons_self a rest)
      rw [List.cons_append, List.dropWhile_cons, if_pos (by simp [ha])]
      exact ih (fun x hx => h x (List.mem_cons_of_mem a hx))

/-- The netloc/path assembly introduces no `?` byte. -/
theorem netloc_url_ne_63 (netloc url : List Nat)
    (hn : ∀ x ∈ netloc, x ≠ 63) (hu : ∀ x ∈ url, x ≠ 63) :
    ∀ x ∈ netloc_url netloc url, x ≠ 63 := by
  intro x hx
  unfold netloc_url at hx
  split_ifs at hx with hA hB
  · rcases List.mem_append.mp hx with h | h
    · rcases List.mem_append.mp h with h2 | h2
      · rcases List.mem_cons.mp h2 with h3 | h3
        · subst h3
          decide
        · rcases List.mem_cons.mp h3 with h4 | h4
          · subst h4
            decide
          · exact absurd h4 (List.not_mem_nil x)
      · exact hn x h2
    · rcases List.mem_cons.mp h with h2 | h2
      · subst h2
        decide
      · exact hu x h2
  · rcases List.mem_append.mp hx with h | h
    · rcases List.mem_append.mp h with h2 | h2
      · rcases List.mem_cons.mp h2 with h3 | h3
        · subst h3
          decide
        · rcases List.mem_cons.mp h3 with h4 | h4
          · subst h4
            decide
          · exact absurd h4 (List.not_mem_nil x)
      · exact hn x h2
    · exact hu x h
  · exact hu x hx

/-- The whole pre-query part of `urlunsplit` is `?`-free when its
components are. -/
theorem urlunsplit_base_ne_63 (scheme netloc url : List Nat)
    (hs : ∀ x ∈ scheme, x ≠ 63) (hn : ∀ x ∈ netloc, x ≠ 63)
    (hu : ∀ x ∈ url, x ≠ 63) :
    ∀ x ∈ urlunsplit_base scheme netloc url, x ≠ 63 := by
  intro x hx
  unfold urlunsplit_base at hx
  split_ifs at hx
  · rcases List.mem_append.mp hx with h | h
    · exact hs x h
    · rcases List.mem_cons.mp h with h2 | h2
      · subst h2
        decide
      · exact netloc_url_ne_63 netloc url hn hu x h2
  · exact netloc_url_ne_63 netloc url hn hu x hx

/-- Extracting the query from an assembled URI recovers the query passed to
`urlunsplit`. -/
theorem uriQuery_urlunsplit (scheme netloc url query : List Nat)
    (hs : ∀ x ∈ scheme, x ≠ 63) (hn : ∀ x ∈ netloc, x ≠ 63)
    (hu : ∀ x ∈ url, x ≠ 63) (hq : query ≠ []) :
    uriQuery (urlunsplit scheme netloc url query) = query := by
  unfold urlunsplit
  rw [if_pos hq]
  exact uriQuery_append _ _ (urlunsplit_base_ne_63 scheme netloc url hs hn hu)

/-- C8: the link builder is a pure function (hence deterministic) and
round-trips the node id: for every origin — given as the parsed
`scheme`/`netloc`/`path` components, which `urlparse` guarantees to be
`?`-free — and every non-empty node id (ids are UUID strings), parsing the
query of the produced URI with `parse_qs` yields exactly that id under the
key `id`, and the URI carries the `view=detail` marker. -/
theorem make_link_for_id_roundtrip (scheme netloc path wid : List Nat)
    (hs : ∀ x ∈ scheme, x ≠ 63) (hn : ∀ x ∈ netloc, x ≠ 63) (hp : ∀ x ∈ path, x ≠ 63)
    (hw : ∀ b ∈ wid, b < 256) (hne : wid ≠ []) :
    parse_qs_get (uriQuery (make_link_for_id scheme netloc path wid)) (asciiBytes "id")
      = [wid] ∧
    parse_qs_get (uriQuery (make_link_for_id scheme netloc path wid)) (asciiBytes "view")
      = [asciiBytes "detail"] := by
  have hpath' : ∀ x ∈ (if path = [] then [47] else path), x ≠ 63 := by
    split_ifs with h
    · intro x hx
      rcases List.mem_cons.mp hx with h2 | h2
      · subst h2
        decide
      · exact absurd h2 (List.not_mem_nil x)
    · exact hp
  have hqne : make_query wid ≠ [] := by
    unfold make_query
    simp only [urlencodePairs]
    simp
  have hq1 : uriQuery (make_link_for_id scheme netloc path wid) = make_query wid := by
    simp only [make_link_for_id]
    exact uriQuery_urlunsplit _ _ _ _ hs hn hpath' hqne
  have hqexp : make_query wid
      = ([105, 100] ++ 61 :: quotePlus wid) ++ 38 ::
          ([118, 105, 101, 119] ++ 61 :: [100, 101, 116, 97, 105, 108]) := by
    have hidq : quotePlus (asciiBytes "id") = [105, 100] := by decide
    have hviewq : quotePlus (asciiBytes "view") = [118, 105, 101, 119] := by decide
    have hdetq : quotePlus (asciiBytes "detail") = [100, 101, 116, 97, 105, 108] := by decide
    unfold make_query
    simp only [urlencodePairs, hidq, hviewq, hdetq]
  have hA38 : ∀ x ∈ ([105, 100] : List Nat) ++ 61 :: quotePlus wid, x ≠ 38 := by
    intro x hx
    rcases List.mem_append.mp hx with h | h
    · rcases List.mem_cons.mp h with h2 | h2
      · subst h2
        decide
      · rcases List.mem_cons.mp h2 with h3 | h3
        · subst h3
          decide
        · exact absurd h3 (List.not_mem_nil x)
    · rcases List.mem_cons.mp h with h2 | h2
      · subst h2
        decide
      · exact quotePlus_ne_sep wid x h2
  have hsplit2 : splitOnByte 38
      (([118, 105, 101, 119] : List Nat) ++ 61 :: [100, 101, 116, 97, 105, 108])
      = [[118, 105, 101, 119] ++ 61 :: [100, 101, 116, 97, 105, 108]] := by decide
  have hsplit : splitOnByte 38
      (([105, 100] ++ 61 :: quotePlus wid) ++ 38 ::
        ([118, 105, 101, 119] ++ 61 :: [100, 101, 116, 97, 105, 108]))
      = [[105, 100] ++ 61 :: quotePlus wid,
         [118, 105, 101, 119] ++ 61 :: [100, 101, 116, 97, 105, 108]] := by
    rw [splitOnByte_append 38 _ _ hA38, hsplit2]
  have hk61 : ∀ x ∈ ([105, 100] : List Nat), x ≠ 61 := by decide
  have hu1 : unquoteBytes [105, 100] = [105, 100] := by decide
  have hpair1 : parse_pair (105 :: 100 :: 61 :: quotePlus wid)
      = some ([105, 100], wid) := by
    have h := parse_pair_eq [105, 100] (quotePlus wid) hk61 (quotePlus_ne_nil wid hne)
    rw [hu1, unquote_quotePlus wid hw] at h
    simpa using h
  have hpair2 : parse_pair [118, 105, 101, 119, 61, 100, 101, 116, 97, 105, 108]
      = some ([118, 105, 101, 119], [100, 101, 116, 97, 105, 108]) := by decide
  have hqsl : parse_qsl
      (([105, 100] ++ 61 :: quotePlus wid) ++ 38 ::
        ([118, 105, 101, 119] ++ 61 :: [100, 101, 116, 97, 105, 108]))
      = [([105, 100], wid), ([118, 105, 101, 119], [100, 101, 116, 97, 105, 108])] := by
    unfold parse_qsl
    rw [hsplit]
    simp [List.filterMap_cons, hpair1, hpair2]
  have hidb : asciiBytes "id" = [105, 100] := by decide
  have hviewb : asciiBytes "view" = [118, 105, 101, 119] := by decide
  have hdetb : asciiBytes "detail" = [100, 101, 116, 97, 105, 108] := by decide
  constructor
  · rw [hq1, hqexp, hidb]
    unfold parse_qs_get
    rw [hqsl]
    simp
  · rw [hq1, hqexp, hviewb, hdetb]
    unfold parse_qs_get
    rw [hqsl]
    simp

/-- Witness for C8: the deployed origin `https://whispersbetav2.streamlit.app`
(whose parsed path is empty, exercising the `path or "/"` default) and the
id `"abc-123"`. -/
theorem make_link_for_id_roundtrip_witness :
    (∀ x ∈ asciiBytes "https", x ≠ 63) ∧
    (∀ x ∈ asciiBytes "whispersbetav2.streamlit.app", x ≠ 63) ∧
    (∀ x ∈ ([] : List Nat), x ≠ 63) ∧
    (∀ b ∈ asciiBytes "abc-123", b < 256) ∧
    asciiBytes "abc-123" ≠ [] ∧
    parse_qs_get (uriQuery (make_link_for_id (asciiBytes "https")
        (asciiBytes "whispersbetav2.streamlit.app") [] (asciiBytes "abc-123")))
      (asciiBytes "id") = [asciiBytes "abc-123"] ∧
    parse_qs_get (uriQuery (make_link_for_id (asciiBytes "https")
        (asciiBytes "whispersbetav2.streamlit.app") [] (asciiBytes "abc-123")))
      (asciiBytes "view") = [asciiBytes "detail"] :=
  ⟨by decide, by decide, by decide, by decide, by decide,
   (make_link_for_id_roundtrip (asciiBytes "https")
      (asciiBytes "whispersbetav2.streamlit.app") [] (asciiBytes "abc-123")
      (by decide) (by decide) (by decide) (by decide) (by decide)).1,
   (make_link_for_id_roundtrip (asciiBytes "https")
      (asciiBytes "whispersbetav2.streamlit.app") [] (asciiBytes "abc-123")
      (by decide) (by decide) (by decide) (by decide) (by decide)).2⟩
